import Mathlib

/-!
Verification of the `logger` package (a minimal leveled logging facility).

The repository snapshot contains several historical revisions of the same
package:
* `src/loglevel.go` — the severity scale: a dedicated `Level` type
  (`LevelInvalid = 0`, `LevelPanic = 1` … `LevelDebug = 8`), `ParseLevel`,
  the `String` method and `Loglevels`.
* `src/unnamed/part_002` (second document, ©2020-2023) — the intermediate
  Logger core: one mutex, integer levels `LevelPanic = 0` … `LevelDebug = 7`,
  `New`, `trigger`, `Println`, `Printf`, `autoAppendLF`, setters.
* `src/logger.go` (©2020) — the earliest Logger core (three mutexes); its
  `Println` additionally strips trailing newlines from the joined message
  (`strings.TrimRight(fmt.Sprint(v...), "\n")`).
* `src/unnamed/part_000` — the default-instance registry.
* `src/flag.go` — the command-line level flag adapter.

Mutexes and `io.Writer` are modelled away: the sink is the `String` of bytes
written so far, a Go panic is the `Except.error` case carrying the panic
message, and `fmt.Fprintf` returns the UTF-8 byte count of what it wrote
(Go counts bytes).  Variadic arguments are modelled by the already-joined
string `fmt.Sprint(v...)` (resp. `fmt.Sprintf(format, a...)`), and the
formatted current time `time.Now().Format(tf)` is passed in as an explicit
`now : String` argument.
-/

/-- Models Go `strings.ToLower` (resp. Lean's own `String.toLower`, which is
likewise per-character): lower-case every character of the string. -/
def toLowerGo (s : String) : String := ⟨s.data.map Char.toLower⟩

/-- The last character of a string, if any.  `lastChar s = some c` exactly
when the string ends in `c`; since `'\n'` is a one-byte character, Go's
`strings.HasSuffix(s, "\n")` is `lastChar s = some '\n'`. -/
def lastChar (s : String) : Option Char := s.data.getLast?

namespace Loglevel

/-! Embedding of `src/loglevel.go` (severity scale of the 2023 revision). -/

/-- `type Level int` -/
abbrev Level := Int

/-- `LevelInvalid Level = iota` — not a loglevel, the invalid sentinel. -/
def LevelInvalid : Level := 0

def LevelPanic : Level := 1

def LevelAlert : Level := 2

def LevelCritical : Level := 3

def LevelError : Level := 4

def LevelWarning : Level := 5

def LevelNotice : Level := 6

def LevelInfo : Level := 7

def LevelDebug : Level := 8

/-- `assertLoglevel` of `src/loglevel.go`: panics (here: `Except.error` with
the panic message) if the loglevel is outside `[LevelPanic, LevelDebug]`. -/
def assertLoglevel (lvl : Level) : Except String Unit :=
  if lvl < LevelPanic ∨ lvl > LevelDebug then
    .error ("Log level " ++ toString lvl ++ " is not defined")
  else
    .ok ()

/-- The error message built by `ParseLevel`'s `fmt.Errorf` on failure
(`%q` quotes the input). -/
def parseLevelErrMsg (input : String) : String :=
  "Input sequence \"" ++ input ++ "\" cannot be associated with a defined loglevel"

/-- `ParseLevel` of `src/loglevel.go`: `switch strings.ToLower(input)` over
the eight canonical names; on failure returns `LevelInvalid` together with
an error (modelled as the `Option String` component). -/
def ParseLevel (input : String) : Level × Option String :=
  if toLowerGo input = "panic" then (LevelPanic, none)
  else if toLowerGo input = "alert" then (LevelAlert, none)
  else if toLowerGo input = "critical" then (LevelCritical, none)
  else if toLowerGo input = "error" then (LevelError, none)
  else if toLowerGo input = "warning" then (LevelWarning, none)
  else if toLowerGo input = "notice" then (LevelNotice, none)
  else if toLowerGo input = "info" then (LevelInfo, none)
  else if toLowerGo input = "debug" then (LevelDebug, none)
  else (LevelInvalid, some (parseLevelErrMsg input))

/-- The `String` method of `Level` (`func (r Level) String() string`):
capitalized name for the eight valid levels, `"Undefined"` otherwise. -/
def LevelString (r : Level) : String :=
  if r = LevelPanic then "Panic"
  else if r = LevelAlert then "Alert"
  else if r = LevelCritical then "Critical"
  else if r = LevelError then "Error"
  else if r = LevelWarning then "Warning"
  else if r = LevelNotice then "Notice"
  else if r = LevelInfo then "Info"
  else if r = LevelDebug then "Debug"
  else "Undefined"

/-- The eight canonical lower-case names paired with their levels, in source
order.  Used only to state theorems about `ParseLevel`. -/
def canonicalNames : List (String × Level) :=
  [("panic", LevelPanic), ("alert", LevelAlert), ("critical", LevelCritical),
   ("error", LevelError), ("warning", LevelWarning), ("notice", LevelNotice),
   ("info", LevelInfo), ("debug", LevelDebug)]

end Loglevel

namespace Core

/-! Embedding of the Logger core, second document of `src/unnamed/part_002`
(©2020-2023 revision: one mutex, `Printf`/`autoAppendLF`, `Die`/`Dief`).
Levels here are plain untyped integer constants `LevelPanic = iota` = 0 …
`LevelDebug` = 7, distinct from the `Loglevel` namespace's dedicated type. -/

def LevelPanic : Int := 0

def LevelAlert : Int := 1

def LevelCritical : Int := 2

def LevelError : Int := 3

def LevelWarning : Int := 4

def LevelNotice : Int := 5

def LevelInfo : Int := 6

def LevelDebug : Int := 7

/-- The `level2str` map literal, as an association list in source order.
(Go map iteration order is unspecified; every use below is order-independent
because the keys are distinct and all values are well-formed.) -/
def level2strList : List (Int × String) :=
  [(LevelPanic, "[Panic]"), (LevelAlert, "[Alert]"), (LevelCritical, "[Critical]"),
   (LevelError, "[Error]"), (LevelWarning, "[Warning]"), (LevelNotice, "[Notice]"),
   (LevelInfo, "[Info]"), (LevelDebug, "[Debug]")]

/-- `level2str[k]`: Go map indexing, returning the zero value `""` for a
missing key. -/
def level2str (k : Int) : String := (List.lookup k level2strList).getD ""

/-- `assertLoglevel` of the core: panics (modelled as `Except.error` with the
panic message) if the level is outside `[LevelPanic, LevelDebug]`. -/
def assertLoglevel (level : Int) : Except String Unit :=
  if level < LevelPanic ∨ level > LevelDebug then
    .error ("Log level " ++ toString level ++ " is not defined")
  else
    .ok ()

/-- The `Logger` struct.  `out` is the accumulated contents of the
`io.Writer` sink; the mutex is modelled away (all operations here are the
bodies of single critical sections). -/
structure Logger where
  delimiter : String
  timeFormat : String
  level : Int
  out : String
  deriving DecidableEq

/-- `New(w, level, delimiter)`: panics on an empty delimiter
(`len(delimiter) < 1`) or an out-of-range level; otherwise returns a Logger
with the given fields and no time format. -/
def New (w : String) (level : Int) (delimiter : String) : Except String Logger :=
  if delimiter.utf8ByteSize < 1 then
    .error "delimiter must have one or more characters"
  else
    match assertLoglevel level with
    | .error e => .error e
    | .ok _ => .ok { delimiter := delimiter, timeFormat := "", level := level, out := w }

/-- `trigger`: asserts the message level, then reports whether it is at most
the configured level. -/
def trigger (l : Logger) (level : Int) : Except String Bool :=
  match assertLoglevel level with
  | .error e => .error e
  | .ok _ => if level ≤ l.level then .ok true else .ok false

/-- `Println(level, v...)`.  `msg` stands for the joined stringification
`fmt.Sprint(v...)` and `now` for `time.Now().Format(l.timeFormat)`.  Returns
the pair (updated sink state, bytes written) or the panic message. -/
def Println (l : Logger) (level : Int) (msg now : String) : Except String (Logger × Nat) :=
  match trigger l level with
  | .error e => .error e
  | .ok false => .ok (l, 0)
  | .ok true =>
    if l.timeFormat.utf8ByteSize > 0 then
      let record := level2str level ++ l.delimiter ++ now ++ l.delimiter ++ msg ++ "\n"
      .ok ({ l with out := l.out ++ record }, record.utf8ByteSize)
    else
      let record := level2str level ++ l.delimiter ++ msg ++ "\n"
      .ok ({ l with out := l.out ++ record }, record.utf8ByteSize)

/-- `autoAppendLF`: appends one newline iff the input does not already end
with one (`strings.HasSuffix(input, "\n")`, i.e. the last character is a
newline).  A method on `*Logger` in the source, but it never reads the
receiver. -/
def autoAppendLF (input : String) : String :=
  if lastChar input = some '\n' then input else input ++ "\n"

/-- `Printf(level, format, a...)`.  `msg` stands for the formatted message
`fmt.Sprintf(format, a...)` and `now` for `time.Now().Format(l.timeFormat)`. -/
def Printf (l : Logger) (level : Int) (msg now : String) : Except String (Logger × Nat) :=
  match trigger l level with
  | .error e => .error e
  | .ok false => .ok (l, 0)
  | .ok true =>
    if l.timeFormat.utf8ByteSize > 0 then
      let record := level2str level ++ l.delimiter ++ now ++ l.delimiter ++ autoAppendLF msg
      .ok ({ l with out := l.out ++ record }, record.utf8ByteSize)
    else
      let record := level2str level ++ l.delimiter ++ autoAppendLF msg
      .ok ({ l with out := l.out ++ record }, record.utf8ByteSize)

/-- `SetLevel`: asserts, then replaces the stored level. -/
def SetLevel (l : Logger) (level : Int) : Except String Logger :=
  match assertLoglevel level with
  | .error e => .error e
  | .ok _ => .ok { l with level := level }

/-- `SetOutput`: replaces the sink (the new writer's accumulated contents
start as `w`). -/
def SetOutput (l : Logger) (w : String) : Logger := { l with out := w }

/-- `SetTimeFormat`: replaces the time format string. -/
def SetTimeFormat (l : Logger) (format : String) : Logger := { l with timeFormat := format }

/-- The capitalized display name of each of the eight core levels (the text
between the brackets of `level2str`); `""` off-range.  Used only to state
the output-format theorems. -/
def displayName (L : Int) : String :=
  if L = LevelPanic then "Panic"
  else if L = LevelAlert then "Alert"
  else if L = LevelCritical then "Critical"
  else if L = LevelError then "Error"
  else if L = LevelWarning then "Warning"
  else if L = LevelNotice then "Notice"
  else if L = LevelInfo then "Info"
  else if L = LevelDebug then "Debug"
  else ""

/-- One public mutating call on a `Logger` (the calls quantified over by the
reachability invariant). -/
inductive Op where
  | setLevel (level : Int)
  | setOutput (w : String)
  | setTimeFormat (format : String)
  | println (level : Int) (msg now : String)
  | printf (level : Int) (msg now : String)

/-- Perform one call, keeping only the resulting Logger state (a panic
aborts the run). -/
def applyOp (l : Logger) : Op → Except String Logger
  | .setLevel n => SetLevel l n
  | .setOutput w => .ok (SetOutput l w)
  | .setTimeFormat f => .ok (SetTimeFormat l f)
  | .println L m now =>
    match Println l L m now with
    | .error e => .error e
    | .ok (l', _) => .ok l'
  | .printf L m now =>
    match Printf l L m now with
    | .error e => .error e
    | .ok (l', _) => .ok l'

/-- Perform a sequence of calls that all return normally. -/
def runOps (l : Logger) : List Op → Except String Logger
  | [] => .ok l
  | op :: rest =>
    match applyOp l op with
    | .error e => .error e
    | .ok l' => runOps l' rest

end Core

namespace Flag

/-! Embedding of `src/flag.go` (the `LevelFlag` command-line adapter; it
shares `level2str` and the integer level constants with the core). -/

/-- The message of `fmt.Errorf("%q is not a valid loglevel string
representation", arg)`, used by both `str2arg` and `Set`. -/
def flagErrMsg (arg : String) : String :=
  "\"" ++ arg ++ "\" is not a valid loglevel string representation"

/-- `str2arg`: rejects inputs that do not look like `"[Name]"`
(`input[0] != '['`, `input[len(input)-1] != ']'`, `len(input) < 3`),
otherwise lower-cases the bracketed interior `input[1 : len(input)-1]`.
(On the empty string the Go code would panic on `input[0]`; the model
reports the error instead — this path is unreachable from `Set`, which only
passes the well-formed `level2str` values.) -/
def str2arg (input : String) : Except String String :=
  if input.data.head? ≠ some '[' ∨ lastChar input ≠ some ']' ∨ input.utf8ByteSize < 3 then
    .error (flagErrMsg input)
  else
    .ok (toLowerGo ⟨(input.data.drop 1).dropLast⟩)

/-- The body of `Set`'s `for k, v := range level2str` loop: convert each
display string with `str2arg` (propagating its error) and store the key of
the first match. -/
def setLoop (arg : String) : List (Int × String) → Except String Int
  | [] => .error (flagErrMsg arg)
  | (k, v) :: rest =>
    match str2arg v with
    | .error e => .error e
    | .ok level => if arg = level then .ok k else setLoop arg rest

/-- `LevelFlag.Set(arg)`: on success the value stored into the flag
(`*f = LevelFlag(k)`), otherwise the returned error (the flag is left
unchanged). -/
def «Set» (arg : String) : Except String Int := setLoop arg Core.level2strList

/-- The eight exact lower-case command-line names with their stored levels,
in source order.  Used only to state theorems about `Set`. -/
def lcNames : List (String × Int) :=
  [("panic", 0), ("alert", 1), ("critical", 2), ("error", 3),
   ("warning", 4), ("notice", 5), ("info", 6), ("debug", 7)]

end Flag

namespace Canonical

/-! The Logger core of the spec's canonical target revision (dedicated
`Level` type; its `logger.go` is not under `src/` — only its tests and the
severity scale are), modelled from the spec where marked.  It reuses the
`Loglevel` scale, which is under `src/`. -/

/-- Models `strings.TrimRight(s, "\n")`: remove every trailing newline
character. -/
def trimRightLF (s : String) : String :=
  ⟨(s.data.reverse.dropWhile (· == '\n')).reverse⟩

/-- The `Logger` struct of the canonical revision (same fields as the
intermediate one, with the dedicated level type). -/
structure Logger where
  delimiter : String
  timeFormat : String
  level : Loglevel.Level
  out : String
  deriving DecidableEq

/-- Modelled from the spec: `Construct(sink, minimumLevel, delimiter)` of
the canonical revision — "fails fatally if delimiter is empty or
minimumLevel is outside the valid range.  On success returns a ready-to-use
instance with no timestamp configured."  Identical to the intermediate
revision's `New` up to the level range, using `src/loglevel.go`'s
`assertLoglevel`. -/
def New (w : String) (level : Loglevel.Level) (delimiter : String) : Except String Logger :=
  if delimiter.utf8ByteSize < 1 then
    .error "delimiter must have one or more characters"
  else
    match Loglevel.assertLoglevel level with
    | .error e => .error e
    | .ok _ => .ok { delimiter := delimiter, timeFormat := "", level := level, out := w }

/-- Modelled from the spec: the gate — assert the level, then emit iff it is
numerically at most the configured minimum. -/
def trigger (l : Logger) (level : Loglevel.Level) : Except String Bool :=
  match Loglevel.assertLoglevel level with
  | .error e => .error e
  | .ok _ => if level ≤ l.level then .ok true else .ok false

/-- Modelled from the spec: `Emit` of the canonical revision (its
`logger.go` is not under `src/`; only its tests are).  "Concatenate the
variadic values … strip all trailing newline characters from the result,
then write `"[LevelName]" + delimiter + [timestamp + delimiter +] message +
"\n"`."  `msg` stands for the joined `fmt.Sprint(v...)`, `now` for the
formatted current time.  The stripping agrees with the earlier revision
present under `src/` (`src/logger.go` lines 133–147:
`strings.TrimRight(fmt.Sprint(v...), "\n")`). -/
def Println (l : Logger) (level : Loglevel.Level) (msg now : String) :
    Except String (Logger × Nat) :=
  match trigger l level with
  | .error e => .error e
  | .ok false => .ok (l, 0)
  | .ok true =>
    if l.timeFormat.utf8ByteSize > 0 then
      let record := "[" ++ Loglevel.LevelString level ++ "]" ++ l.delimiter ++ now
        ++ l.delimiter ++ trimRightLF msg ++ "\n"
      .ok ({ l with out := l.out ++ record }, record.utf8ByteSize)
    else
      let record := "[" ++ Loglevel.LevelString level ++ "]" ++ l.delimiter
        ++ trimRightLF msg ++ "\n"
      .ok ({ l with out := l.out ++ record }, record.utf8ByteSize)

end Canonical

namespace DefaultReg

/-! Embedding of `src/unnamed/part_000` (the default-instance registry).
The package-global `var defaultLogger *Logger` is modelled as an explicit
state `Option Canonical.Logger` (`none` = nil pointer).  This file belongs
to the canonical revision (it passes a `Level` to `New`), so it constructs
`Canonical.Logger`s. -/

/-- `Default()`: returns the stored logger, panicking (modelled as
`Except.error` with the panic message) when none has been set up. -/
def Default (st : Option Canonical.Logger) : Except String Canonical.Logger :=
  match st with
  | none => .error "Programming error: Default logger is not set, please set it up first by calling SetupDefaultLogger()"
  | some l => .ok l

/-- `SetupDefaultLogger(w, level, delimiter)`: replaces the stored logger —
whatever it was — with `New(w, level, delimiter)` (whose panic, if any,
propagates).  Returns the new registry state. -/
def SetupDefaultLogger (_prev : Option Canonical.Logger) (w : String)
    (level : Loglevel.Level) (delimiter : String) : Except String (Option Canonical.Logger) :=
  match Canonical.New w level delimiter with
  | .error e => .error e
  | .ok l => .ok (some l)

end DefaultReg

/-! ## Helper lemmas -/

/-- `s.utf8ByteSize` (Go's `len(s)`) is zero exactly for the empty string. -/
theorem utf8ByteSize_eq_zero (s : String) : s.utf8ByteSize = 0 ↔ s = "" := by
  cases s with
  | mk cs =>
    rw [String.utf8ByteSize_mk, String.utf8Len_eq_zero]
    constructor
    · intro h; subst h; rfl
    · intro h; exact congrArg String.data h

/-- Byte length of a concatenation is the sum of byte lengths. -/
theorem utf8ByteSize_append (s t : String) :
    (s ++ t).utf8ByteSize = s.utf8ByteSize + t.utf8ByteSize := by
  cases s with
  | mk cs =>
    cases t with
    | mk ds =>
      show (String.mk (cs ++ ds)).utf8ByteSize = _
      rw [String.utf8ByteSize_mk, String.utf8ByteSize_mk, String.utf8ByteSize_mk,
        String.utf8Len_append]

/-- A nonempty string has positive byte length. -/
theorem utf8ByteSize_pos (s : String) (h : s ≠ "") : 0 < s.utf8ByteSize := by
  rcases Nat.eq_zero_or_pos s.utf8ByteSize with h0 | hpos
  · exact absurd ((utf8ByteSize_eq_zero s).1 h0) h
  · exact hpos

/-- The head of `dropWhile p` never satisfies `p`. -/
theorem head_dropWhile_false (p : Char → Bool) (l : List Char) (x : Char)
    (h : (l.dropWhile p).head? = some x) : p x = false := by
  induction l with
  | nil => simp [List.dropWhile] at h
  | cons a as ih =>
    rw [List.dropWhile_cons] at h
    by_cases hp : p a = true
    · rw [if_pos hp] at h; exact ih h
    · rw [if_neg hp] at h
      simp only [List.head?_cons, Option.some.injEq] at h
      subst h
      simpa using hp

/-- `lastChar` of a concatenation: the right side wins when nonempty. -/
theorem lastChar_append (a b : String) : lastChar (a ++ b) = (lastChar b).or (lastChar a) := by
  show ((a ++ b).data).getLast? = _
  rw [String.data_append, List.getLast?_append]
  rfl

/-- Appending `"\n"` makes the last character a newline. -/
theorem lastChar_append_lf (m : String) : lastChar (m ++ "\n") = some '\n' := by
  rw [lastChar_append]
  rfl

/-- Only the empty string has no last character. -/
theorem lastChar_eq_none (s : String) : lastChar s = none ↔ s = "" := by
  constructor
  · intro h
    exact String.ext (List.getLast?_eq_none_iff.mp h)
  · intro h; subst h; rfl

/-- A concatenation of two strings, neither of which ends in a newline,
does not end in a newline. -/
theorem lastChar_concat_ne (a b : String) (ha : lastChar a ≠ some '\n')
    (hb : lastChar b ≠ some '\n') : lastChar (a ++ b) ≠ some '\n' := by
  rw [lastChar_append]
  cases h : lastChar b with
  | none => simpa using ha
  | some c => rw [h] at hb; simpa using hb

/-- A concatenation ending in a nonempty string `d` whose last character is
not a newline does not end in a newline. -/
theorem lastChar_append_delim_ne (a d : String) (hd : d ≠ "")
    (hdn : lastChar d ≠ some '\n') : lastChar (a ++ d) ≠ some '\n' := by
  rw [lastChar_append]
  cases h : lastChar d with
  | none => exact absurd ((lastChar_eq_none d).1 h) hd
  | some c => rw [h] at hdn; simpa using hdn

theorem Core.assert_ok (L : Int) (h1 : LevelPanic ≤ L) (h2 : L ≤ LevelDebug) :
    assertLoglevel L = .ok () := by
  rw [assertLoglevel, if_neg]
  push_neg
  exact ⟨h1, h2⟩

theorem Core.new_ok (w d : String) (L : Int) (hd : d ≠ "")
    (h1 : LevelPanic ≤ L) (h2 : L ≤ LevelDebug) :
    New w L d = .ok { delimiter := d, timeFormat := "", level := L, out := w } := by
  rw [New, if_neg (by have := utf8ByteSize_pos d hd; omega), assert_ok L h1 h2]

theorem Core.trigger_true (l : Logger) (L : Int) (h1 : LevelPanic ≤ L) (h2 : L ≤ LevelDebug)
    (hle : L ≤ l.level) : trigger l L = .ok true := by
  rw [trigger, assert_ok L h1 h2]
  exact if_pos hle

theorem Core.trigger_false (l : Logger) (L : Int) (h1 : LevelPanic ≤ L) (h2 : L ≤ LevelDebug)
    (hgt : l.level < L) : trigger l L = .ok false := by
  rw [trigger, assert_ok L h1 h2]
  exact if_neg (by omega)

theorem Core.println_pass (l : Logger) (L : Int) (m now : String)
    (h1 : LevelPanic ≤ L) (h2 : L ≤ LevelDebug) (hle : L ≤ l.level)
    (htf : l.timeFormat = "") :
    Println l L m now =
      .ok ({ l with out := l.out ++ (level2str L ++ l.delimiter ++ m ++ "\n") },
        (level2str L ++ l.delimiter ++ m ++ "\n").utf8ByteSize) := by
  rw [Println, trigger_true l L h1 h2 hle]
  rw [if_neg (by rw [htf]; decide)]

theorem Core.println_drop (l : Logger) (L : Int) (m now : String)
    (h1 : LevelPanic ≤ L) (h2 : L ≤ LevelDebug) (hgt : l.level < L) :
    Println l L m now = .ok (l, 0) := by
  rw [Println, trigger_false l L h1 h2 hgt]

theorem Core.println_state (l : Logger) (L : Int) (m now : String) (l' : Logger) (n : Nat)
    (h : Println l L m now = .ok (l', n)) :
    l'.level = l.level ∧ l'.delimiter = l.delimiter := by
  rcases htr : trigger l L with e | b
  · simp [Println, htr] at h
  · cases b
    · simp only [Println, htr, Except.ok.injEq, Prod.mk.injEq] at h
      rw [← h.1]
      exact ⟨rfl, rfl⟩
    · simp only [Println, htr] at h
      split at h <;>
        (simp only [Except.ok.injEq, Prod.mk.injEq] at h; rw [← h.1]; exact ⟨rfl, rfl⟩)

theorem Core.printf_state (l : Logger) (L : Int) (m now : String) (l' : Logger) (n : Nat)
    (h : Printf l L m now = .ok (l', n)) :
    l'.level = l.level ∧ l'.delimiter = l.delimiter := by
  rcases htr : trigger l L with e | b
  · simp [Printf, htr] at h
  · cases b
    · simp only [Printf, htr, Except.ok.injEq, Prod.mk.injEq] at h
      rw [← h.1]
      exact ⟨rfl, rfl⟩
    · simp only [Printf, htr] at h
      split at h <;>
        (simp only [Except.ok.injEq, Prod.mk.injEq] at h; rw [← h.1]; exact ⟨rfl, rfl⟩)

theorem Core.applyOp_inv (l l' : Logger) (op : Op) (h : applyOp l op = .ok l') :
    ((LevelPanic ≤ l.level ∧ l.level ≤ LevelDebug) →
      (LevelPanic ≤ l'.level ∧ l'.level ≤ LevelDebug))
    ∧ l'.delimiter = l.delimiter := by
  cases op with
  | setLevel n =>
    simp only [applyOp, SetLevel] at h
    rcases hA : assertLoglevel n with e | u
    · rw [hA] at h; exact absurd h (by simp)
    · rw [hA] at h
      simp only [Except.ok.injEq] at h
      rw [assertLoglevel] at hA
      by_cases hn : n < LevelPanic ∨ n > LevelDebug
      · rw [if_pos hn] at hA; exact absurd hA (by simp)
      · push_neg at hn
        rw [← h]
        exact ⟨fun _ => hn, rfl⟩
  | setOutput w =>
    simp only [applyOp, SetOutput, Except.ok.injEq] at h
    rw [← h]
    exact ⟨fun hb => hb, rfl⟩
  | setTimeFormat f =>
    simp only [applyOp, SetTimeFormat, Except.ok.injEq] at h
    rw [← h]
    exact ⟨fun hb => hb, rfl⟩
  | println L m now =>
    rcases hp : Println l L m now with e | p
    · simp [applyOp, hp] at h
    · rcases p with ⟨l1, n⟩
      simp only [applyOp, hp, Except.ok.injEq] at h
      have hs := println_state l L m now l1 n hp
      rw [← h]
      exact ⟨fun hb => by rw [hs.1]; exact hb, hs.2⟩
  | printf L m now =>
    rcases hp : Printf l L m now with e | p
    · simp [applyOp, hp] at h
    · rcases p with ⟨l1, n⟩
      simp only [applyOp, hp, Except.ok.injEq] at h
      have hs := printf_state l L m now l1 n hp
      rw [← h]
      exact ⟨fun hb => by rw [hs.1]; exact hb, hs.2⟩

theorem Core.runOps_inv (ops : List Op) : ∀ (l lf : Logger),
    runOps l ops = .ok lf →
    (LevelPanic ≤ l.level ∧ l.level ≤ LevelDebug) →
    ((LevelPanic ≤ lf.level ∧ lf.level ≤ LevelDebug) ∧ lf.delimiter = l.delimiter) := by
  induction ops with
  | nil =>
    intro l lf h hinv
    simp only [runOps, Except.ok.injEq] at h
    rw [← h]
    exact ⟨hinv, rfl⟩
  | cons op rest ih =>
    intro l lf h hinv
    rcases hap : applyOp l op with e | l1
    · simp [runOps, hap] at h
    · simp only [runOps, hap] at h
      have hi := applyOp_inv l l1 op hap
      have hrest := ih l1 lf h (hi.1 hinv)
      exact ⟨hrest.1, hrest.2.trans hi.2⟩

theorem Core.level2str_eq_display (L : Int) (h1 : LevelPanic ≤ L) (h2 : L ≤ LevelDebug) :
    level2str L = "[" ++ displayName L ++ "]" := by
  have : L = 0 ∨ L = 1 ∨ L = 2 ∨ L = 3 ∨ L = 4 ∨ L = 5 ∨ L = 6 ∨ L = 7 := by
    simp only [LevelPanic, LevelDebug] at h1 h2; omega
  rcases this with h | h | h | h | h | h | h | h <;> (subst h; decide)

theorem Flag.str2arg_eval_panic : str2arg "[Panic]" = .ok "panic" := rfl

theorem Flag.str2arg_eval_alert : str2arg "[Alert]" = .ok "alert" := rfl

theorem Flag.str2arg_eval_critical : str2arg "[Critical]" = .ok "critical" := rfl

theorem Flag.str2arg_eval_error : str2arg "[Error]" = .ok "error" := rfl

theorem Flag.str2arg_eval_warning : str2arg "[Warning]" = .ok "warning" := rfl

theorem Flag.str2arg_eval_notice : str2arg "[Notice]" = .ok "notice" := rfl

theorem Flag.str2arg_eval_info : str2arg "[Info]" = .ok "info" := rfl

theorem Flag.str2arg_eval_debug : str2arg "[Debug]" = .ok "debug" := rfl

theorem Loglevel.assert_valid_ok (L : Level) (h1 : LevelPanic ≤ L) (h2 : L ≤ LevelDebug) :
    assertLoglevel L = .ok () := by
  rw [assertLoglevel, if_neg]
  push_neg
  exact ⟨h1, h2⟩

theorem Canonical.new_valid_ok (w d : String) (L : Loglevel.Level) (hd : d ≠ "")
    (h1 : Loglevel.LevelPanic ≤ L) (h2 : L ≤ Loglevel.LevelDebug) :
    New w L d = .ok { delimiter := d, timeFormat := "", level := L, out := w } := by
  rw [New, if_neg (by have := utf8ByteSize_pos d hd; omega), Loglevel.assert_valid_ok L h1 h2]

theorem Canonical.trigger_pass (l : Logger) (L : Loglevel.Level)
    (h1 : Loglevel.LevelPanic ≤ L) (h2 : L ≤ Loglevel.LevelDebug) (hle : L ≤ l.level) :
    trigger l L = .ok true := by
  rw [trigger, Loglevel.assert_valid_ok L h1 h2]
  exact if_pos hle

theorem Canonical.trimRightLF_append_lf (m : String) :
    trimRightLF (m ++ "\n") = trimRightLF m := by
  have h : (m ++ "\n").data.reverse.dropWhile (· == '\n')
      = m.data.reverse.dropWhile (· == '\n') := by
    rw [String.data_append]
    show (m.data ++ ['\n']).reverse.dropWhile (· == '\n') = _
    rw [List.reverse_append]
    simp [List.dropWhile_cons]
  simp only [trimRightLF, h]

theorem Canonical.lastChar_trimRightLF (m : String) :
    lastChar (trimRightLF m) ≠ some '\n' := by
  intro hc
  have h : (m.data.reverse.dropWhile (· == '\n')).head? = some '\n' := by
    change ((m.data.reverse.dropWhile (· == '\n')).reverse).getLast? = some '\n' at hc
    rw [List.getLast?_reverse] at hc
    exact hc
  have hfalse := head_dropWhile_false _ _ _ h
  simp at hfalse

/-! ## Claims -/

/-- Claim C1: for a Logger built by `New` with a valid minimum level and any
valid message level, `Println` appends a (nonempty, positive-byte-count)
record to the sink iff the message level is numerically at most the minimum
level; otherwise it returns `(0, nil)` with the logger state unchanged. -/
theorem println_gates_by_level (w d m now : String) (minL msgL : Int)
    (hd : d ≠ "")
    (hmin1 : Core.LevelPanic ≤ minL) (hmin2 : minL ≤ Core.LevelDebug)
    (hmsg1 : Core.LevelPanic ≤ msgL) (hmsg2 : msgL ≤ Core.LevelDebug) :
    ∃ l, Core.New w minL d = .ok l ∧
      (msgL ≤ minL →
        ∃ record, 0 < record.utf8ByteSize ∧
          Core.Println l msgL m now
            = .ok ({ l with out := l.out ++ record }, record.utf8ByteSize))
      ∧ (minL < msgL → Core.Println l msgL m now = .ok (l, 0)) := by
  refine ⟨_, Core.new_ok w d minL hd hmin1 hmin2, ?_, ?_⟩
  · intro hle
    refine ⟨Core.level2str msgL ++ d ++ m ++ "\n", ?_, ?_⟩
    · rw [utf8ByteSize_append]
      have : (0 : Nat) < "\n".utf8ByteSize := by decide
      omega
    · exact Core.println_pass _ msgL m now hmsg1 hmsg2 hle rfl
  · intro hgt
    exact Core.println_drop _ msgL m now hmsg1 hmsg2 hgt

/-- Witness for C1 at minimum level `LevelCritical = 2`, message levels
`LevelAlert = 1` (written) and, via a second application, `LevelError = 3`
(dropped). -/
theorem println_gates_by_level_witness :
    (∃ l, Core.New "w" 2 " - " = .ok l ∧
      ((1 : Int) ≤ 2 →
        ∃ record, 0 < record.utf8ByteSize ∧
          Core.Println l 1 "msg" ""
            = .ok ({ l with out := l.out ++ record }, record.utf8ByteSize))
      ∧ ((2 : Int) < 1 → Core.Println l 1 "msg" "" = .ok (l, 0)))
    ∧ (∃ l, Core.New "w" 2 " - " = .ok l ∧
      ((3 : Int) ≤ 2 →
        ∃ record, 0 < record.utf8ByteSize ∧
          Core.Println l 3 "msg" ""
            = .ok ({ l with out := l.out ++ record }, record.utf8ByteSize))
      ∧ ((2 : Int) < 3 → Core.Println l 3 "msg" "" = .ok (l, 0))) :=
  ⟨println_gates_by_level "w" " - " "msg" "" 2 1 (by decide) (by decide) (by decide)
      (by decide) (by decide),
    println_gates_by_level "w" " - " "msg" "" 2 3 (by decide) (by decide) (by decide)
      (by decide) (by decide)⟩

/-- Claim C2: for every valid level `L`, nonempty delimiter `d` and message
`m`, a Logger built at minimum level `L` (hence with no time format), upon
`Println` of `m` at level `L`, appends to the sink exactly
`"[" ++ displayName L ++ "]" ++ d ++ m ++ "\n"` — bracketed level tag,
delimiter, message, one final newline, no timestamp segment. -/
theorem println_record_format (w d m now : String) (L : Int)
    (hd : d ≠ "") (h1 : Core.LevelPanic ≤ L) (h2 : L ≤ Core.LevelDebug) :
    ∃ l n, Core.New w L d = .ok l ∧
      Core.Println l L m now
        = .ok ({ l with out := w ++ ("[" ++ Core.displayName L ++ "]" ++ d ++ m ++ "\n") }, n) := by
  refine ⟨{ delimiter := d, timeFormat := "", level := L, out := w },
    ("[" ++ Core.displayName L ++ "]" ++ d ++ m ++ "\n").utf8ByteSize,
    Core.new_ok w d L hd h1 h2, ?_⟩
  rw [Core.println_pass _ L m now h1 h2 (le_refl L) rfl,
    Core.level2str_eq_display L h1 h2]

/-- Witness for C2 at `L = LevelError = 3`, delimiter `" - "`, message
`"x"`: the record is `"[Error] - x\n"`. -/
theorem println_record_format_witness :
    ∃ l n, Core.New "" 3 " - " = .ok l ∧
      Core.Println l 3 "x" ""
        = .ok ({ l with out := "" ++ ("[" ++ Core.displayName 3 ++ "]" ++ " - " ++ "x" ++ "\n") }, n) :=
  println_record_format "" " - " "x" "" 3 (by decide) (by decide) (by decide)

/-- Claim C5: Parse/Display round-trip — for each of the 8 valid levels
(`LevelPanic` through `LevelDebug`), applying `ParseLevel` to the lowercased
result of the level's `String` method returns exactly that level with no
error. -/
theorem parse_display_roundtrip :
    Loglevel.ParseLevel (toLowerGo (Loglevel.LevelString Loglevel.LevelPanic))
      = (Loglevel.LevelPanic, none)
    ∧ Loglevel.ParseLevel (toLowerGo (Loglevel.LevelString Loglevel.LevelAlert))
      = (Loglevel.LevelAlert, none)
    ∧ Loglevel.ParseLevel (toLowerGo (Loglevel.LevelString Loglevel.LevelCritical))
      = (Loglevel.LevelCritical, none)
    ∧ Loglevel.ParseLevel (toLowerGo (Loglevel.LevelString Loglevel.LevelError))
      = (Loglevel.LevelError, none)
    ∧ Loglevel.ParseLevel (toLowerGo (Loglevel.LevelString Loglevel.LevelWarning))
      = (Loglevel.LevelWarning, none)
    ∧ Loglevel.ParseLevel (toLowerGo (Loglevel.LevelString Loglevel.LevelNotice))
      = (Loglevel.LevelNotice, none)
    ∧ Loglevel.ParseLevel (toLowerGo (Loglevel.LevelString Loglevel.LevelInfo))
      = (Loglevel.LevelInfo, none)
    ∧ Loglevel.ParseLevel (toLowerGo (Loglevel.LevelString Loglevel.LevelDebug))
      = (Loglevel.LevelDebug, none) := by
  decide

/-- Claim C6: `ParseLevel` is total (never panics).  If the input's
lower-casing matches one of the 8 canonical names it returns the
corresponding valid level (in `[LevelPanic, LevelDebug]`, hence never the
`LevelInvalid` sentinel) and no error; for any other string it returns
`LevelInvalid` together with the descriptive error naming the input. -/
theorem parseLevel_total_spec (s : String) :
    (∀ p, p ∈ Loglevel.canonicalNames → toLowerGo s = p.1 →
      Loglevel.ParseLevel s = (p.2, none)
        ∧ Loglevel.LevelPanic ≤ p.2 ∧ p.2 ≤ Loglevel.LevelDebug
        ∧ p.2 ≠ Loglevel.LevelInvalid)
    ∧ ((∀ p, p ∈ Loglevel.canonicalNames → toLowerGo s ≠ p.1) →
      Loglevel.ParseLevel s = (Loglevel.LevelInvalid, some (Loglevel.parseLevelErrMsg s))) := by
  constructor
  · intro p hp heq
    simp only [Loglevel.canonicalNames, List.mem_cons, List.mem_singleton,
      List.not_mem_nil, or_false] at hp
    rcases hp with h | h | h | h | h | h | h | h <;>
      (subst h; refine ⟨?_, by decide, by decide, by decide⟩) <;>
      simp [Loglevel.ParseLevel, heq]
  · intro h
    have h1 := h ("panic", Loglevel.LevelPanic) (by simp [Loglevel.canonicalNames])
    have h2 := h ("alert", Loglevel.LevelAlert) (by simp [Loglevel.canonicalNames])
    have h3 := h ("critical", Loglevel.LevelCritical) (by simp [Loglevel.canonicalNames])
    have h4 := h ("error", Loglevel.LevelError) (by simp [Loglevel.canonicalNames])
    have h5 := h ("warning", Loglevel.LevelWarning) (by simp [Loglevel.canonicalNames])
    have h6 := h ("notice", Loglevel.LevelNotice) (by simp [Loglevel.canonicalNames])
    have h7 := h ("info", Loglevel.LevelInfo) (by simp [Loglevel.canonicalNames])
    have h8 := h ("debug", Loglevel.LevelDebug) (by simp [Loglevel.canonicalNames])
    simp only [Loglevel.ParseLevel,
      if_neg h1, if_neg h2, if_neg h3, if_neg h4, if_neg h5, if_neg h6, if_neg h7, if_neg h8]

/-- Witness for C6 at the concrete inputs `"PANIC"` (matching) and `"bogus"`
(not matching). -/
theorem parseLevel_total_spec_witness :
    Loglevel.ParseLevel "PANIC" = (Loglevel.LevelPanic, none)
    ∧ Loglevel.ParseLevel "bogus"
      = (Loglevel.LevelInvalid, some (Loglevel.parseLevelErrMsg "bogus")) := by
  constructor
  · exact ((parseLevel_total_spec "PANIC").1 ("panic", Loglevel.LevelPanic)
      (by decide) (by decide)).1
  · exact (parseLevel_total_spec "bogus").2 (by decide)

/-- Claim C7: `New` panics iff the delimiter is empty or the level is outside
`[LevelPanic, LevelDebug]`; otherwise it returns a ready Logger carrying the
given sink, level and delimiter, with no time format configured. -/
theorem new_panics_iff_invalid_args (w d : String) (L : Int) :
    ((∃ e, Core.New w L d = .error e) ↔
      (d = "" ∨ L < Core.LevelPanic ∨ Core.LevelDebug < L))
    ∧ (d ≠ "" → Core.LevelPanic ≤ L → L ≤ Core.LevelDebug →
        Core.New w L d = .ok { delimiter := d, timeFormat := "", level := L, out := w }) := by
  constructor
  · by_cases hd : d = ""
    · subst hd
      constructor
      · intro _; exact Or.inl rfl
      · intro _
        exact ⟨"delimiter must have one or more characters",
          by rw [Core.New, if_pos (by decide)]⟩
    · by_cases hL : L < Core.LevelPanic ∨ Core.LevelDebug < L
      · constructor
        · intro _; exact Or.inr hL
        · intro _
          refine ⟨"Log level " ++ toString L ++ " is not defined", ?_⟩
          rw [Core.New, if_neg (by have := utf8ByteSize_pos d hd; omega)]
          rw [Core.assertLoglevel, if_pos hL]
      · push_neg at hL
        constructor
        · rintro ⟨e, he⟩
          rw [Core.new_ok w d L hd hL.1 hL.2] at he
          exact absurd he (by simp)
        · intro h
          rcases h with h | h
          · exact absurd h hd
          · exact absurd h (by omega)
  · intro hd h1 h2
    exact Core.new_ok w d L hd h1 h2

/-- Witness for C7: a valid construction at level 3 with delimiter `" - "`
succeeds with the expected fields, and (from the iff, applied at an invalid
input) constructing with an empty delimiter fails. -/
theorem new_panics_iff_invalid_args_witness :
    Core.New "sink" 3 " - "
      = .ok { delimiter := " - ", timeFormat := "", level := 3, out := "sink" }
    ∧ (∃ e, Core.New "sink" 3 "" = .error e) :=
  ⟨(new_panics_iff_invalid_args "sink" " - " 3).2 (by decide) (by decide) (by decide),
    ((new_panics_iff_invalid_args "sink" "" 3).1).2 (Or.inl rfl)⟩

/-- Claim C4: `Printf` is idempotent with respect to the trailing newline.
If the formatted message does not end in `"\n"`, emitting it and emitting
it with `"\n"` appended produce identical results (sink and byte count),
the message part of the record is the message plus exactly one newline
(its second-to-last character is not a newline — never a double); if the
message already ends in `"\n"`, nothing is appended. -/
theorem printf_newline_idempotent (l : Core.Logger) (L : Int) (m now : String) :
    (lastChar m ≠ some '\n' →
      Core.Printf l L (m ++ "\n") now = Core.Printf l L m now
      ∧ Core.autoAppendLF m = m ++ "\n"
      ∧ lastChar (Core.autoAppendLF m) = some '\n'
      ∧ (Core.autoAppendLF m).data.dropLast.getLast? ≠ some '\n')
    ∧ (lastChar m = some '\n' → Core.autoAppendLF m = m) := by
  constructor
  · intro h
    have hb : Core.autoAppendLF m = m ++ "\n" := by rw [Core.autoAppendLF, if_neg h]
    have ha : Core.autoAppendLF (m ++ "\n") = m ++ "\n" := by
      rw [Core.autoAppendLF, if_pos (lastChar_append_lf m)]
    refine ⟨?_, hb, ?_, ?_⟩
    · rcases htr : Core.trigger l L with e | b
      · simp [Core.Printf, htr]
      · cases b
        · simp [Core.Printf, htr]
        · simp [Core.Printf, htr, ha, hb]
    · rw [hb]; exact lastChar_append_lf m
    · rw [hb]
      have hdata : (m ++ "\n").data = m.data ++ ['\n'] := by rw [String.data_append]
      rw [hdata, List.dropLast_concat]
      exact h
  · intro h
    rw [Core.autoAppendLF, if_pos h]

/-- Witness for C4 at the message `"5 + 4 = 9"` (no trailing newline; both
emissions agree and one newline is appended) and at `"done\n"` (nothing is
appended). -/
theorem printf_newline_idempotent_witness :
    Core.Printf { delimiter := " - ", timeFormat := "", level := 7, out := "" } 7
        ("5 + 4 = 9" ++ "\n") ""
      = Core.Printf { delimiter := " - ", timeFormat := "", level := 7, out := "" } 7
        "5 + 4 = 9" ""
    ∧ Core.autoAppendLF "5 + 4 = 9" = "5 + 4 = 9" ++ "\n"
    ∧ Core.autoAppendLF "done\n" = "done\n" :=
  ⟨((printf_newline_idempotent { delimiter := " - ", timeFormat := "", level := 7, out := "" }
      7 "5 + 4 = 9" "").1 (by decide)).1,
   ((printf_newline_idempotent { delimiter := " - ", timeFormat := "", level := 7, out := "" }
      7 "5 + 4 = 9" "").1 (by decide)).2.1,
   (printf_newline_idempotent { delimiter := " - ", timeFormat := "", level := 7, out := "" }
      7 "done\n" "").2 (by decide)⟩

/-- Claim C3: the canonical revision's `Println` (modelled from the spec;
in agreement with the earlier revision `src/logger.go`) strips all trailing
newlines from the joined message before appending its single terminating
newline.  Emitting `m` and `m ++ "\n"` therefore produce identical results,
and the record written is `core ++ "\n"` where `core` does not end in a
newline — exactly one trailing newline (given a delimiter that does not
itself end in a newline). -/
theorem canonical_println_strips_newlines (l : Canonical.Logger) (L : Loglevel.Level)
    (m now : String)
    (h1 : Loglevel.LevelPanic ≤ L) (h2 : L ≤ Loglevel.LevelDebug)
    (hle : L ≤ l.level) (hd : l.delimiter ≠ "") (hdn : lastChar l.delimiter ≠ some '\n') :
    Canonical.Println l L (m ++ "\n") now = Canonical.Println l L m now
    ∧ ∃ core n, Canonical.Println l L m now
        = .ok ({ l with out := l.out ++ (core ++ "\n") }, n)
      ∧ lastChar core ≠ some '\n' := by
  constructor
  · have hs := Canonical.trimRightLF_append_lf m
    rcases htr : Canonical.trigger l L with e | b
    · simp [Canonical.Println, htr]
    · cases b
      · simp [Canonical.Println, htr]
      · simp [Canonical.Println, htr, hs]
  · have htr := Canonical.trigger_pass l L h1 h2 hle
    rw [Canonical.Println, htr]
    by_cases htf : l.timeFormat.utf8ByteSize > 0
    · rw [if_pos htf]
      refine ⟨"[" ++ Loglevel.LevelString L ++ "]" ++ l.delimiter ++ now ++ l.delimiter
          ++ Canonical.trimRightLF m, _, rfl, ?_⟩
      exact lastChar_concat_ne _ _
        (lastChar_append_delim_ne _ _ hd hdn) (Canonical.lastChar_trimRightLF m)
    · rw [if_neg htf]
      refine ⟨"[" ++ Loglevel.LevelString L ++ "]" ++ l.delimiter
          ++ Canonical.trimRightLF m, _, rfl, ?_⟩
      exact lastChar_concat_ne _ _
        (lastChar_append_delim_ne _ _ hd hdn) (Canonical.lastChar_trimRightLF m)

/-- Witness for C3 at a Debug-level logger with delimiter `" - "` and
message `"x"`: emitting `"x" ++ "\n"` and `"x"` agree, and the record ends
in exactly one newline. -/
theorem canonical_println_strips_newlines_witness :
    Canonical.Println { delimiter := " - ", timeFormat := "", level := 8, out := "" } 8
        ("x" ++ "\n") ""
      = Canonical.Println { delimiter := " - ", timeFormat := "", level := 8, out := "" } 8
        "x" ""
    ∧ ∃ core n,
        Canonical.Println { delimiter := " - ", timeFormat := "", level := 8, out := "" } 8
          "x" ""
        = .ok ({ delimiter := " - ", timeFormat := "", level := 8, out := "" ++ (core ++ "\n") }, n)
      ∧ lastChar core ≠ some '\n' :=
  canonical_println_strips_newlines
    { delimiter := " - ", timeFormat := "", level := 8, out := "" } 8 "x" ""
    (by decide) (by decide) (by decide) (by decide) (by decide)

/-- Claim C8: `Default` on an empty registry panics with the
contract-violation message; on a populated registry it returns the stored
logger; `SetupDefaultLogger` stores the logger built by `New` from its
arguments regardless of (i.e. overwriting) any previously stored
instance. -/
theorem default_registry_spec (w d : String) (L : Loglevel.Level)
    (st st' : Option Canonical.Logger) :
    (∃ msg, DefaultReg.Default none = .error msg)
    ∧ (∀ l, DefaultReg.Default (some l) = .ok l)
    ∧ DefaultReg.SetupDefaultLogger st w L d = DefaultReg.SetupDefaultLogger st' w L d
    ∧ (d ≠ "" → Loglevel.LevelPanic ≤ L → L ≤ Loglevel.LevelDebug →
        ∃ l, Canonical.New w L d = .ok l
          ∧ DefaultReg.SetupDefaultLogger st w L d = .ok (some l)
          ∧ DefaultReg.Default (some l) = .ok l) := by
  refine ⟨⟨_, rfl⟩, fun l => rfl, rfl, ?_⟩
  intro hd h1 h2
  refine ⟨_, Canonical.new_valid_ok w d L hd h1 h2, ?_, rfl⟩
  rw [DefaultReg.SetupDefaultLogger, Canonical.new_valid_ok w d L hd h1 h2]

/-- Witness for C8: setting up over an empty registry at level `LevelInfo =
7` with delimiter `" | "` stores exactly the freshly constructed logger,
which `Default` then returns. -/
theorem default_registry_spec_witness :
    (∃ msg, DefaultReg.Default none = .error msg)
    ∧ (∀ l, DefaultReg.Default (some l) = .ok l)
    ∧ DefaultReg.SetupDefaultLogger none "" 7 " | "
      = DefaultReg.SetupDefaultLogger
          (some { delimiter := "-", timeFormat := "", level := 1, out := "" }) "" 7 " | "
    ∧ ((" | " : String) ≠ "" → Loglevel.LevelPanic ≤ 7 → (7 : Int) ≤ Loglevel.LevelDebug →
        ∃ l, Canonical.New "" 7 " | " = .ok l
          ∧ DefaultReg.SetupDefaultLogger none "" 7 " | " = .ok (some l)
          ∧ DefaultReg.Default (some l) = .ok l) :=
  default_registry_spec "" " | " 7 none
    (some { delimiter := "-", timeFormat := "", level := 1, out := "" })

/-- Claim C9 fails on the code: `LevelFlag.Set` compares the argument with
the exact lower-cased names (`arg == level`, case-sensitively), while
`ParseLevel` lower-cases its input first.  At the concrete input `"Panic"`,
`Set` returns an error although `ParseLevel` accepts it. -/
theorem set_mixed_case_counterexample :
    Flag.Set "Panic" = .error (Flag.flagErrMsg "Panic")
    ∧ Loglevel.ParseLevel "Panic" = (Loglevel.LevelPanic, none) :=
  ⟨rfl, rfl⟩

/-- Claim C9 (amended): `LevelFlag.Set(text)` succeeds — storing the
corresponding level — exactly when `text` is one of the eight exact
lower-case level names (a strict subset of what the case-insensitive
`ParseLevel` accepts); on any other input it returns the descriptive error
naming `text` (and the flag is left unchanged). -/
theorem set_accepts_exact_lowercase_names (arg : String) :
    Flag.Set arg = match List.lookup arg Flag.lcNames with
      | some k => Except.ok k
      | none => Except.error (Flag.flagErrMsg arg) := by
  by_cases e1 : arg = "panic"
  · subst e1; rfl
  by_cases e2 : arg = "alert"
  · subst e2; rfl
  by_cases e3 : arg = "critical"
  · subst e3; rfl
  by_cases e4 : arg = "error"
  · subst e4; rfl
  by_cases e5 : arg = "warning"
  · subst e5; rfl
  by_cases e6 : arg = "notice"
  · subst e6; rfl
  by_cases e7 : arg = "info"
  · subst e7; rfl
  by_cases e8 : arg = "debug"
  · subst e8; rfl
  have hset : Flag.Set arg = .error (Flag.flagErrMsg arg) := by
    simp only [Flag.Set, Core.level2strList, Flag.setLoop,
      Flag.str2arg_eval_panic, Flag.str2arg_eval_alert, Flag.str2arg_eval_critical,
      Flag.str2arg_eval_error, Flag.str2arg_eval_warning, Flag.str2arg_eval_notice,
      Flag.str2arg_eval_info, Flag.str2arg_eval_debug]
    simp [e1, e2, e3, e4, e5, e6, e7, e8]
  have hlook : List.lookup arg Flag.lcNames = none := by
    have b1 : (arg == "panic") = false := by simp [e1]
    have b2 : (arg == "alert") = false := by simp [e2]
    have b3 : (arg == "critical") = false := by simp [e3]
    have b4 : (arg == "error") = false := by simp [e4]
    have b5 : (arg == "warning") = false := by simp [e5]
    have b6 : (arg == "notice") = false := by simp [e6]
    have b7 : (arg == "info") = false := by simp [e7]
    have b8 : (arg == "debug") = false := by simp [e8]
    simp [Flag.lcNames, List.lookup, b1, b2, b3, b4, b5, b6, b7, b8]
  rw [hset, hlook]

/-- Claim C10 (implicit invariant): every Logger reachable from a successful
`New` by any sequence of `SetLevel`, `SetOutput`, `SetTimeFormat`, `Println`
and `Printf` calls that all return normally has its stored level in
`[LevelPanic, LevelDebug]` and its delimiter equal to the string supplied at
construction. -/
theorem logger_invariant_reachable (w d : String) (L0 : Int) (ops : List Core.Op)
    (l0 lf : Core.Logger)
    (hd : d ≠ "") (h1 : Core.LevelPanic ≤ L0) (h2 : L0 ≤ Core.LevelDebug)
    (hnew : Core.New w L0 d = .ok l0) (hrun : Core.runOps l0 ops = .ok lf) :
    (Core.LevelPanic ≤ lf.level ∧ lf.level ≤ Core.LevelDebug) ∧ lf.delimiter = d := by
  rw [Core.new_ok w d L0 hd h1 h2] at hnew
  simp only [Except.ok.injEq] at hnew
  rw [← hnew] at hrun
  have hres := Core.runOps_inv ops _ lf hrun ⟨h1, h2⟩
  exact ⟨hres.1, hres.2⟩

/-- Witness for C10: starting from `New("", LevelCritical, " - ")` and
running `SetTimeFormat "x"`, `SetLevel LevelPanic`, a passing `Println`, a
`SetOutput` and a dropped `Printf`, the final state keeps a valid level
(`LevelPanic`) and the construction delimiter. -/
theorem logger_invariant_reachable_witness :
    (Core.LevelPanic ≤ (Core.Logger.mk " - " "x" 0 "").level
      ∧ (Core.Logger.mk " - " "x" 0 "").level ≤ Core.LevelDebug)
    ∧ (Core.Logger.mk " - " "x" 0 "").delimiter = " - " :=
  logger_invariant_reachable "" " - " 2
    [Core.Op.setTimeFormat "x", Core.Op.setLevel 0, Core.Op.println 0 "hi" "t",
      Core.Op.setOutput "", Core.Op.printf 7 "a" "t"]
    (Core.Logger.mk " - " "" 2 "") (Core.Logger.mk " - " "x" 0 "")
    (by decide) (by decide) (by decide) rfl rfl
